import Mathlib

/-!
Verification of the qtopo-server coordination layer (src/server.js).

This file shallowly embeds the coordination core of the tile server:
coordinate validation (`zxysToStrings`), the vector-tile fetch coordinator
(`ensureVectorTile`), the render coordinator (`renderTile`), the raster
route's fallback policy, the in-flight dedup registries (`inflightPbf`,
`inflightRaster`), and the cleanup sweeper (`cleanupOld`, `runCleanupOnce`).

The disk is modelled as an association list from absolute path to file
content (a list of byte values); `undefined`/missing files are absent keys.
Upstream HTTP responses and renderer completions are parameters of the
embedded step functions, since the code treats them as opaque events.
-/

namespace QTopo

/-- File contents: a list of byte values. Only length 0 vs length > 0 is
ever inspected by the server (`existsNonEmpty`, `buf.length`), but we keep
the full content so that writes can be traced faithfully. -/
abbrev Bytes := List Nat

/-- The on-disk state: absolute path to content. `FS.write` overwrites. -/
abbrev FS := List (String × Bytes)

def FS.read (fs : FS) (p : String) : Option Bytes :=
  (fs.find? (fun e => e.1 == p)).map Prod.snd

def FS.write (fs : FS) (p : String) (b : Bytes) : FS :=
  (p, b) :: fs.filter (fun e => e.1 != p)

def FS.unlink (fs : FS) (p : String) : FS :=
  fs.filter (fun e => e.1 != p)

/-- src/server.js:53 `existsNonEmpty`: the file exists and has size > 0. -/
def existsNonEmpty (fs : FS) (p : String) : Bool :=
  match fs.read p with
  | some b => !b.isEmpty
  | none => false

/-- src/server.js:47 `isNonNegInt`: JS `/^\d+$/.test(String(v))`, i.e. a
nonempty string of decimal digits. -/
def isNonNegInt (s : String) : Bool :=
  !s.isEmpty && s.toList.all (fun c => c.isDigit)

/-- JS `String(v)` applied to a possibly-missing route component:
a missing (`undefined`) component stringifies to `"undefined"`. -/
def jsStringOfOpt : Option String → String
  | none => "undefined"
  | some s => s

/-- src/server.js:48-51 `zxysToStrings`: validate the three components and
return them verbatim; throws `"bad z/x/y"` otherwise. -/
def zxysToStrings (z x y : String) : Except String (String × String × String) :=
  if isNonNegInt z && isNonNegInt x && isNonNegInt y then .ok (z, x, y)
  else .error "bad z/x/y"

/-- src/server.js:19-20: default data roots (DATA_DIR=/data). -/
def VECTOR_DIR : String := "/data/vector"

def RASTER_DIR : String := "/data/raster"

/-- src/server.js:28-30: the upstream vector tile service base URL. -/
def VECTOR_BASE_URL : String :=
  "https://spatial.information.qld.gov.au/arcgis/rest/services/Hosted/Basemaps_QldBase_Topographic/VectorTileServer/tile"

/-- src/server.js:75: `path.join(VECTOR_DIR, zStr, xStr, yStr + ".pbf")`. -/
def vectorPath (z x y : String) : String :=
  VECTOR_DIR ++ "/" ++ z ++ "/" ++ x ++ "/" ++ y ++ ".pbf"

/-- src/server.js:106/178: `path.join(RASTER_DIR, zStr, xStr, yStr + ".png")`. -/
def rasterPath (z x y : String) : String :=
  RASTER_DIR ++ "/" ++ z ++ "/" ++ x ++ "/" ++ y ++ ".png"

/-- src/server.js:76: the in-flight registry key `zStr/xStr/yStr`. -/
def vectorKey (z x y : String) : String :=
  z ++ "/" ++ x ++ "/" ++ y

/-- src/server.js:81: the upstream URL; note the z/y/x component order. -/
def upstreamUrl (z x y : String) : String :=
  VECTOR_BASE_URL ++ "/" ++ z ++ "/" ++ y ++ "/" ++ x ++ ".pbf"

/-- Failure modes of `ensureVectorTile` (src/server.js:73-99): a thrown
`"bad z/x/y"`, a non-2xx HTTP status (`e.status = resp.status`), an empty
2xx body (`e.code = "EMPTY_PBF"`), or the fetch-timeout abort. -/
inductive VTError where
  | badCoord
  | http (status : Nat)
  | emptyPbf
  | aborted
deriving DecidableEq, Repr

/-- What the upstream does for one fetch: respond with a status and body,
or the 10s abort timer fires first. -/
inductive UpEvent where
  | resp (status : Nat) (body : Bytes)
  | abort
deriving DecidableEq, Repr

/-- Filesystem operations performed by one `ensureVectorTile` run, traced
so that the write discipline (direct write vs temp-file + rename) is
observable. -/
inductive FsEvent where
  | fetchEv (url : String)
  | writeEv (path : String) (content : Bytes)
  | unlinkEv (path : String)
  | renameEv (src dst : String)
deriving DecidableEq, Repr

instance {ε α : Type} [DecidableEq ε] [DecidableEq α] : DecidableEq (Except ε α) := fun a b =>
  match a, b with
  | .error e1, .error e2 =>
    decidable_of_iff (e1 = e2) ⟨fun h => h ▸ rfl, fun h => by injection h⟩
  | .ok s1, .ok s2 =>
    decidable_of_iff (s1 = s2) ⟨fun h => h ▸ rfl, fun h => by injection h⟩
  | .error _, .ok _ => isFalse fun h => Except.noConfusion h
  | .ok _, .error _ => isFalse fun h => Except.noConfusion h

structure VTRes where
  fs : FS
  outcome : Except VTError String
  events : List FsEvent
  fetches : Nat
deriving DecidableEq, Repr

/-- src/server.js:98 catch block: a zero-byte file left at `pbfPath` is
unlinked (`fs.existsSync(pbfPath) && fs.statSync(pbfPath).size===0`). -/
def cleanupZero (fs : FS) (p : String) : FS :=
  if fs.read p = some [] then fs.unlink p else fs

def cleanupZeroEvents (fs : FS) (p : String) : List FsEvent :=
  if fs.read p = some [] then [.unlinkEv p] else []

/-- src/server.js:73-99 `ensureVectorTile`, one complete sequential run
(no other request in flight, so the `inflightPbf` check on line 78 misses;
the concurrent behaviour of the registry is modelled separately below).

Control flow mirrored from the source: validate, cache-check
(`existsNonEmpty` is a hit only for size > 0), then fetch the key's URL;
non-2xx throws an error carrying the status; a 2xx empty body throws
`EMPTY_PBF`; a 2xx nonempty body is written directly to `pbfPath` with a
single `writeFile` and the path returned. The catch block removes a
zero-byte file at `pbfPath` before rethrowing. -/
def ensureVectorTileStep (fs : FS) (z x y : String) (ev : UpEvent) : VTRes :=
  match zxysToStrings z x y with
  | .error _ => ⟨fs, .error .badCoord, [], 0⟩
  | .ok (zS, xS, yS) =>
    let pbfPath := vectorPath zS xS yS
    if existsNonEmpty fs pbfPath then
      ⟨fs, .ok pbfPath, [], 0⟩
    else
      let url := upstreamUrl zS xS yS
      let failEvs : List FsEvent := .fetchEv url :: cleanupZeroEvents fs pbfPath
      match ev with
      | .abort => ⟨cleanupZero fs pbfPath, .error .aborted, failEvs, 1⟩
      | .resp status body =>
        if 200 ≤ status ∧ status < 300 then
          if body.isEmpty then
            ⟨cleanupZero fs pbfPath, .error .emptyPbf, failEvs, 1⟩
          else
            ⟨fs.write pbfPath body, .ok pbfPath,
              [.fetchEv url, .writeEv pbfPath body], 1⟩
        else
          ⟨cleanupZero fs pbfPath, .error (.http status), failEvs, 1⟩

/-- Failure modes of `renderTile` (src/server.js:104-135): a thrown
`"bad z/x/y"`, or `render_worker exited {code}` (non-zero exit, or exit 0
without a nonempty output file). -/
inductive RdError where
  | badCoord
  | exited (code : Int)
deriving DecidableEq, Repr

/-- The renderer child process completion, as observed by the parent
(src/server.js:126-129): the exit code of the `close` event, together with
whatever file the worker left at `tilePath` (`none` if it wrote nothing). -/
structure RenderEv where
  exitCode : Int
  written : Option Bytes
deriving DecidableEq, Repr

structure RenderRes where
  fs : FS
  outcome : Except RdError String
  spawns : Nat
deriving DecidableEq, Repr

/-- src/server.js:104-135 `renderTile`, one complete sequential run
(`inflightRaster` empty; the registry's concurrent behaviour is modelled
separately below). Validate, cache-check, then spawn `render_worker` once;
the promise resolves with `tilePath` iff the exit code is 0 and a nonempty
file is present at `tilePath`, and rejects otherwise. `spawns` counts
renderer invocations. -/
def renderTileStep (fs : FS) (z x y : String) (ev : RenderEv) : RenderRes :=
  match zxysToStrings z x y with
  | .error _ => ⟨fs, .error .badCoord, 0⟩
  | .ok (zS, xS, yS) =>
    let tilePath := rasterPath zS xS yS
    if existsNonEmpty fs tilePath then
      ⟨fs, .ok tilePath, 0⟩
    else
      let fs1 := match ev.written with
        | some b => fs.write tilePath b
        | none => fs
      if ev.exitCode = 0 ∧ existsNonEmpty fs1 tilePath then
        ⟨fs1, .ok tilePath, 1⟩
      else
        ⟨fs1, .error (.exited ev.exitCode), 1⟩

/-- Server configuration relevant to the fallback policy:
src/server.js:35-36. `CACHE_BLANK_TILES` defaults to enabled
(`process.env.CACHE_BLANK_TILES !== "0"`), and `BLANK_TILE_PATH`
defaults to `path.join(__dirname, "blank.png")` with the image WORKDIR
`/usr/src/app`. -/
structure Cfg where
  cacheBlankTiles : Bool
  blankTilePath : String
deriving DecidableEq, Repr

def defaultCfg : Cfg := ⟨true, "/usr/src/app/blank.png"⟩

/-- src/server.js:56: the base64 fallback 1x1 transparent PNG. We keep
only the PNG signature bytes as a stand-in for the decoded content; no
claim depends on the exact bytes, only on the content being nonempty. -/
def FALLBACK_BLANK_PNG : Bytes := [137, 80, 78, 71, 13, 10, 26, 10]

/-- src/server.js:57-62 `ensureBlankTilePresent`: write the fallback PNG
at `BLANK_TILE_PATH` if no nonempty file is there. -/
def ensureBlankTilePresent (cfg : Cfg) (fs : FS) : FS :=
  if existsNonEmpty fs cfg.blankTilePath then fs
  else fs.write cfg.blankTilePath FALLBACK_BLANK_PNG

/-- src/server.js:63-69 `writeBlankTile`: ensure the blank asset exists,
then `copyFile` it to `outPath` (copy modelled as read-then-write). -/
def writeBlankTile (cfg : Cfg) (fs : FS) (outPath : String) : FS :=
  let fs1 := ensureBlankTilePresent cfg fs
  match fs1.read cfg.blankTilePath with
  | some b => fs1.write outPath b
  | none => fs1

/-- An HTTP response of the raster route: the status code and the absolute
path of the file served (`sendTile`/`sendFile` serve with status 200). -/
structure HResp where
  status : Nat
  sentPath : String
deriving DecidableEq, Repr

structure HandlerRes where
  fs : FS
  resp : HResp
  fetches : Nat
  spawns : Nat
deriving DecidableEq, Repr

/-- src/server.js:185-186 and 192-193: the fallback taken by the raster
route when `ensureVectorTile` or `renderTile` rejects. With
`CACHE_BLANK_TILES` the blank is copied to the raster cache path and that
cached copy is served; otherwise the blank asset itself is served. -/
def blankFallback (cfg : Cfg) (fs : FS) (outPath : String)
    (fetches spawns : Nat) : HandlerRes :=
  if cfg.cacheBlankTiles then
    ⟨writeBlankTile cfg fs outPath, ⟨200, outPath⟩, fetches, spawns⟩
  else
    ⟨ensureBlankTilePresent cfg fs, ⟨200, cfg.blankTilePath⟩, fetches, spawns⟩

/-- src/server.js:172-195: the `GET /raster/:z/:x/:y.png` handler, one
complete request. Invalid coordinates are answered with the blank asset
(after ensuring it exists); a cached nonempty raster file is served
directly; otherwise the vector prerequisite is ensured (on failure: blank
fallback), the tile is rendered (on failure: blank fallback), and the
rendered file is served. All sends use status 200. -/
def rasterHandler (cfg : Cfg) (fs : FS) (z x y : String)
    (up : UpEvent) (rd : RenderEv) : HandlerRes :=
  match zxysToStrings z x y with
  | .error _ =>
    ⟨ensureBlankTilePresent cfg fs, ⟨200, cfg.blankTilePath⟩, 0, 0⟩
  | .ok (zS, xS, yS) =>
    let outPath := rasterPath zS xS yS
    if existsNonEmpty fs outPath then
      ⟨fs, ⟨200, outPath⟩, 0, 0⟩
    else
      let v := ensureVectorTileStep fs zS xS yS up
      match v.outcome with
      | .error _ => blankFallback cfg v.fs outPath v.fetches 0
      | .ok _ =>
        let r := renderTileStep v.fs zS xS yS rd
        match r.outcome with
        | .ok pth => ⟨r.fs, ⟨200, pth⟩, v.fetches, r.spawns⟩
        | .error _ => blankFallback cfg r.fs outPath v.fetches r.spawns

/-- Whether a trace contains any file write. -/
def hasWrite (evs : List FsEvent) : Bool :=
  evs.any fun e => match e with | .writeEv _ _ => true | _ => false

/-- The spec's description of an atomic cache write ("write to a temporary
path then rename, so concurrent readers never observe a partial file"):
some temporary path distinct from the final path receives the bytes and is
then renamed onto the final path. Stated from the spec's words, to be
compared with the trace the code actually produces. -/
def specAtomicWriteViaRename (evs : List FsEvent) (p : String) (b : Bytes) : Prop :=
  ∃ tmp, tmp ≠ p ∧ FsEvent.writeEv tmp b ∈ evs ∧ FsEvent.renameEv tmp p ∈ evs

/-! ### Cleanup sweeper (src/server.js:204-248) -/

/-- JS `path.extname(name)`: the substring from the last `.` to the end of
the basename, or `""` when there is no `.` or the only `.` is the leading
character. -/
def lastDotPos (cs : List Char) : Option Nat :=
  (cs.enum.filterMap (fun q => if q.2 = '.' then some q.1 else none)).getLast?

def jsExtname (name : String) : String :=
  match lastDotPos name.toList with
  | some i => if i = 0 then "" else ⟨name.toList.drop i⟩
  | none => ""

/-- JS `String.prototype.toLowerCase` on ASCII, written over the character
list so that it evaluates inside the kernel. -/
def jsToLower (s : String) : String :=
  ⟨s.toList.map Char.toLower⟩

/-- src/server.js:44 `toMsOrInfinity`: hours > 0 convert to milliseconds,
otherwise `Infinity` (modelled as `none`). Hours are taken integral; the
claims only involve the sign. -/
def toMsOrInfinity (h : Int) : Option Nat :=
  if h > 0 then some (h.toNat * 3600 * 1000) else none

/-- One regular file seen by the sweep: its full path (`path.join(dir,
ent.name)`), its entry basename, and its mtime in ms. The directory
traversal of src/server.js:206-218 (explicit stack over `readdir`) visits
every regular file of the tree exactly once; we model the visited tree by
that list of files, since no deletion decision depends on the shape of the
tree. -/
structure CacheFile where
  path : String
  name : String
  mtimeMs : Nat
deriving DecidableEq, Repr

/-- src/server.js:212-214 per-file decision: extension in the allowed set
(lowercased), and `now - st.mtimeMs > ttlMs`. There is no exclusion list:
the decision depends on nothing but extension and age. -/
def shouldDelete (now ttlMs : Nat) (exts : List String) (f : CacheFile) : Bool :=
  exts.contains (jsToLower (jsExtname f.name)) && decide (now - f.mtimeMs > ttlMs)

/-- The file loop of src/server.js:207-218, threading the deletion counter;
`cap` is `CLEANUP_MAX_DELETES` (0 = unlimited); once the cap is reached the
traversal stops and the remaining files are left untouched. Returns the
surviving files and the number of deletions. -/
def sweepFiles (now ttlMs : Nat) (exts : List String) (cap : Nat) :
    List CacheFile → Nat → List CacheFile × Nat
  | [], del => ([], del)
  | f :: rest, del =>
    if cap > 0 ∧ cap ≤ del then (f :: rest, del)
    else if shouldDelete now ttlMs exts f then
      sweepFiles now ttlMs exts cap rest (del + 1)
    else
      let (r, d) := sweepFiles now ttlMs exts cap rest del
      (f :: r, d)

/-- src/server.js:204-220 `cleanupOld`: a `ttlMs` of `Infinity` returns 0
immediately without touching the tree, else the sweep runs. -/
def cleanupOld (ttlMs : Option Nat) (now : Nat) (exts : List String)
    (cap : Nat) (files : List CacheFile) : List CacheFile × Nat :=
  match ttlMs with
  | none => (files, 0)
  | some t => sweepFiles now t exts cap files 0

/-- The sweeper's scheduling state (src/server.js:221): `cleanupRunning`,
`cleanupPending`, plus a ghost counter of currently-executing passes used
to state the no-overlap property. -/
structure CleanSt where
  running : Bool
  pending : Bool
  active : Nat
deriving DecidableEq, Repr

/-- What one entry into / exit from `runCleanupOnce` schedules:
`deferred` = returned at line 225 with the pending flag set;
`startedPass` = a sweep pass began; `rerunNow` = `setImmediate` rerun
(line 239); `timerAt t` = `setTimeout` for absolute time `t` (line 240). -/
inductive SchedEffect where
  | deferred
  | startedPass
  | rerunNow
  | timerAt (t : Nat)
deriving DecidableEq, Repr

/-- src/server.js:222: `Math.max(1, CLEANUP_INTERVAL_MINUTES)*60*1000`. -/
def intervalMs (cleanupIntervalMinutes : Int) : Nat :=
  (max 1 cleanupIntervalMinutes).toNat * 60 * 1000

/-- src/server.js:223-226: entering `runCleanupOnce` (with
`CLEANUP_ENABLED`): if a pass is running, set the pending flag and return;
otherwise mark running and start a pass. -/
def triggerCleanup (s : CleanSt) : CleanSt × SchedEffect :=
  if s.running then ({ s with pending := true }, .deferred)
  else ({ s with running := true, active := s.active + 1 }, .startedPass)

/-- src/server.js:237-242: the `finally` block at completion time `now`:
clear `running`; with the pending flag set, clear it and rerun via
`setImmediate`; otherwise set a timer for one interval after completion. -/
def completeCleanup (s : CleanSt) (now : Nat) (m : Int) : CleanSt × SchedEffect :=
  let s1 : CleanSt := { s with running := false, active := s.active - 1 }
  if s1.pending then ({ s1 with pending := false }, .rerunNow)
  else (s1, .timerAt (now + intervalMs m))

/-- The no-overlap invariant: the number of executing passes matches the
`running` flag (so it never exceeds one). -/
def CleanInv (s : CleanSt) : Prop :=
  s.active = (if s.running then 1 else 0)

instance (s : CleanSt) : Decidable (CleanInv s) := by
  unfold CleanInv; infer_instance

/-! ### The in-flight registries under concurrency

src/server.js:72-100 (`inflightPbf` / `ensureVectorTile`) and 103-135
(`inflightRaster` / `renderTile`) follow the same pattern, modelled once
here for a single key. Each concurrent caller runs its synchronous prefix
(cache check, registry check, possibly create-and-register the promise,
attach) as one atomic step — faithful to the event loop, since lines 74-97
up to the `await` contain no suspension point. When the promise settles,
all attached continuations (each caller's `await`, and the creator's
`catch`/`finally` which deletes the registry entry) run as microtasks,
which drain before any further request can arrive; settlement, delivery
and entry removal are therefore a single atomic step. The underlying
operation (the upstream fetch, resp. the renderer spawn) happens inside
the promise body exactly once per created promise, counted by
`workCount`; `removeCount` counts registry deletions. -/

/-- Where one caller of `ensureVectorTile`/`renderTile` stands: not yet
entered; awaiting the shared pending promise; or returned with a result. -/
inductive CallerPc where
  | entry
  | waiting
  | done (r : Except VTError String)
deriving DecidableEq, Repr

/-- The value the shared promise settles with: `res = none` means the
operation succeeds and the promise resolves with the cache path `p`
(src/server.js:92/127); `res = some e` means it rejects with `e`. -/
def dedupOutcome (p : String) (res : Option VTError) : Except VTError String :=
  match res with
  | none => .ok p
  | some e => .error e

structure DSys (n : Nat) where
  cacheHit : Bool
  inflight : Bool
  callers : Fin n → CallerPc
  workCount : Nat
  removeCount : Nat

/-- Promise settlement delivers the same settled value to every attached
caller. -/
def settleCallers {n : Nat} (c : Fin n → CallerPc) (r : Except VTError String) :
    Fin n → CallerPc :=
  fun j => if c j = .waiting then .done r else c j

/-- The atomic steps of the dedup pattern for one key, with the eventual
settlement value fixed by `p`/`res` (the same URL is fetched, resp. the
same tile rendered, each time):
`hit` — a caller's synchronous prefix finds a nonempty cache file and
returns it at once (line 77/109);
`attach` — cache miss, registry occupied: return the registered promise
(line 78/110);
`lead` — cache miss, registry free: create the promise, register it, and
await it (lines 80-97 / 116-133, one synchronous segment);
`settle` — the promise body completes its single underlying operation and
settles; on success the cache file has been written (line 90/127's
check); all waiting callers receive the settled value and the creator's
`finally` deletes the registry entry (line 99/134), all before any new
arrival. -/
inductive DStep (p : String) (res : Option VTError) {n : Nat} :
    DSys n → DSys n → Prop where
  | hit (s : DSys n) (i : Fin n)
      (h1 : s.callers i = .entry) (h2 : s.cacheHit = true) :
      DStep p res s
        ⟨s.cacheHit, s.inflight, Function.update s.callers i (.done (.ok p)),
          s.workCount, s.removeCount⟩
  | attach (s : DSys n) (i : Fin n)
      (h1 : s.callers i = .entry) (h2 : s.cacheHit = false)
      (h3 : s.inflight = true) :
      DStep p res s
        ⟨s.cacheHit, s.inflight, Function.update s.callers i .waiting,
          s.workCount, s.removeCount⟩
  | lead (s : DSys n) (i : Fin n)
      (h1 : s.callers i = .entry) (h2 : s.cacheHit = false)
      (h3 : s.inflight = false) :
      DStep p res s
        ⟨s.cacheHit, true, Function.update s.callers i .waiting,
          s.workCount, s.removeCount⟩
  | settle (s : DSys n) (h : s.inflight = true) :
      DStep p res s
        ⟨s.cacheHit || res.isNone, false,
          settleCallers s.callers (dedupOutcome p res),
          s.workCount + 1, s.removeCount + 1⟩

/-- Reachability under `DStep`. -/
inductive DReach (p : String) (res : Option VTError) {n : Nat} :
    DSys n → DSys n → Prop where
  | refl (s : DSys n) : DReach p res s s
  | tail {s t u : DSys n} :
      DReach p res s t → DStep p res t u → DReach p res s u

/-- N requests for the same never-before-seen key: no cache entry, empty
registry, nobody entered yet. -/
def dInit (n : Nat) : DSys n := ⟨false, false, fun _ => .entry, 0, 0⟩

/-- The success-run invariant of the dedup system: either no operation has
run yet and the cache is still cold, or exactly one has run, the registry
entry is gone and the cache is warm. -/
def DPhi {n : Nat} (s : DSys n) : Prop :=
  (s.workCount = 0 ∧ s.cacheHit = false) ∨
  (s.workCount = 1 ∧ s.inflight = false ∧ s.cacheHit = true)

/-- A concrete key path, used to instantiate the dedup model. -/
def demoPath : String := vectorPath "13" "7551" "4724"

/-- Two concurrent callers for the same cold key, both arrived (one led,
one attached) and none settled: the state reached from `dInit 2` by a
`lead` of caller 0 followed by an `attach` of caller 1. -/
def demoDSys : DSys 2 :=
  ⟨false, true,
    Function.update (Function.update (fun _ => CallerPc.entry) (0 : Fin 2)
      CallerPc.waiting) (1 : Fin 2) CallerPc.waiting, 0, 0⟩

/-! ## Theorems -/

/-! ### Filesystem lemmas -/

theorem FS.read_write_self (fs : FS) (p : String) (b : Bytes) :
    (fs.write p b).read p = some b := by
  simp [FS.read, FS.write, List.find?]

theorem FS.read_unlink_self (fs : FS) (p : String) :
    (fs.unlink p).read p = none := by
  induction fs with
  | nil => rfl
  | cons a t ih =>
    unfold FS.unlink FS.read at ih ⊢
    by_cases h : a.1 = p
    · simp [List.filter_cons, h, ih]
    · simp only [List.filter_cons, bne_iff_ne, ne_eq, h, not_false_eq_true,
        if_true, List.find?_cons]
      have : (a.1 == p) = false := by simp [h]
      rw [this]
      exact ih

theorem existsNonEmpty_write_of_ne_nil (fs : FS) (p : String) (b : Bytes)
    (hb : b ≠ []) : existsNonEmpty (fs.write p b) p = true := by
  unfold existsNonEmpty
  rw [FS.read_write_self]
  simpa using hb

theorem read_cleanupZero_of_miss (fs : FS) (p : String)
    (h : existsNonEmpty fs p = false) : (cleanupZero fs p).read p = none := by
  unfold cleanupZero
  rcases hr : fs.read p with _ | b
  · simp [hr]
  · rcases b with _ | ⟨c, cs⟩
    · simp [FS.read_unlink_self]
    · exfalso
      unfold existsNonEmpty at h
      rw [hr] at h
      simp at h

theorem hasWrite_failEvs (fs : FS) (p : String) (u : String) :
    hasWrite (FsEvent.fetchEv u :: cleanupZeroEvents fs p) = false := by
  unfold cleanupZeroEvents
  split <;> rfl

theorem zxysToStrings_ok {z x y : String} (hz : isNonNegInt z = true)
    (hx : isNonNegInt x = true) (hy : isNonNegInt y = true) :
    zxysToStrings z x y = .ok (z, x, y) := by
  unfold zxysToStrings
  rw [hz, hx, hy]
  rfl

theorem fetches_one_of_miss (fs : FS) (z x y : String) (ev : UpEvent)
    (hz : isNonNegInt z = true) (hx : isNonNegInt x = true)
    (hy : isNonNegInt y = true)
    (hmiss : existsNonEmpty fs (vectorPath z x y) = false) :
    (ensureVectorTileStep fs z x y ev).fetches = 1 := by
  unfold ensureVectorTileStep
  rw [zxysToStrings_ok hz hx hy]
  simp only [hmiss, Bool.false_eq_true, if_false]
  cases ev with
  | abort => rfl
  | resp st body =>
    dsimp only
    split
    · split <;> rfl
    · rfl

theorem existsNonEmpty_false_of_read_none (fs : FS) (p : String)
    (h : fs.read p = none) : existsNonEmpty fs p = false := by
  unfold existsNonEmpty
  rw [h]

theorem vt_hit (fs : FS) (z x y : String) (ev : UpEvent)
    (hz : isNonNegInt z = true) (hx : isNonNegInt x = true)
    (hy : isNonNegInt y = true)
    (hhit : existsNonEmpty fs (vectorPath z x y) = true) :
    ensureVectorTileStep fs z x y ev = ⟨fs, .ok (vectorPath z x y), [], 0⟩ := by
  unfold ensureVectorTileStep
  rw [zxysToStrings_ok hz hx hy]
  simp [hhit]

/-! ### Claim C2 -/

/-- Claim C2, counterexample: upstream answers 200 with a zero-length body
for tile 1/2/3 on an empty cache. `ensureVectorTile` does NOT write a
zero-byte sentinel file and does NOT return the path as a success: it fails
with the `EMPTY_PBF` error and leaves no file at the vector cache path
(src/server.js:89 throws before any write). -/
theorem empty_body_sentinel_cex :
    (ensureVectorTileStep [] "1" "2" "3" (.resp 200 [])).outcome =
      .error .emptyPbf
    ∧ (ensureVectorTileStep [] "1" "2" "3" (.resp 200 [])).fs.read
        (vectorPath "1" "2" "3") = none
    ∧ ¬ ((ensureVectorTileStep [] "1" "2" "3" (.resp 200 [])).outcome =
          .ok (vectorPath "1" "2" "3")) := by
  decide

/-- Claim C2, amended: when upstream responds 2xx with a zero-length body,
`ensureVectorTile` fails with the `EMPTY_PBF` error; no sentinel (indeed no
file at all) is written at the vector cache path, any zero-byte leftover
there is removed, and exactly one upstream fetch was made. -/
theorem empty_body_amended (fs : FS) (z x y : String) (st : Nat)
    (hz : isNonNegInt z = true) (hx : isNonNegInt x = true)
    (hy : isNonNegInt y = true)
    (hmiss : existsNonEmpty fs (vectorPath z x y) = false)
    (h2xx : 200 ≤ st ∧ st < 300) :
    (ensureVectorTileStep fs z x y (.resp st [])).outcome = .error .emptyPbf
    ∧ (ensureVectorTileStep fs z x y (.resp st [])).fs.read (vectorPath z x y) = none
    ∧ hasWrite (ensureVectorTileStep fs z x y (.resp st [])).events = false
    ∧ (ensureVectorTileStep fs z x y (.resp st [])).fetches = 1 := by
  have hred : ensureVectorTileStep fs z x y (.resp st []) =
      ⟨cleanupZero fs (vectorPath z x y), .error .emptyPbf,
        .fetchEv (upstreamUrl z x y) :: cleanupZeroEvents fs (vectorPath z x y), 1⟩ := by
    unfold ensureVectorTileStep
    rw [zxysToStrings_ok hz hx hy]
    simp only [hmiss, Bool.false_eq_true, if_false]
    rw [if_pos h2xx]
    rfl
  rw [hred]
  exact ⟨rfl, read_cleanupZero_of_miss fs _ hmiss, hasWrite_failEvs _ _ _, rfl⟩

theorem empty_body_amended_witness :
    (ensureVectorTileStep [] "5" "6" "7" (.resp 200 [])).outcome = .error .emptyPbf
    ∧ (ensureVectorTileStep [] "5" "6" "7" (.resp 200 [])).fs.read (vectorPath "5" "6" "7") = none
    ∧ hasWrite (ensureVectorTileStep [] "5" "6" "7" (.resp 200 [])).events = false
    ∧ (ensureVectorTileStep [] "5" "6" "7" (.resp 200 [])).fetches = 1 :=
  empty_body_amended [] "5" "6" "7" 200 (by decide) (by decide) (by decide)
    (by decide) (by decide)

/-! ### Claim C4 -/

/-- Claim C4: for every non-2xx upstream status, `ensureVectorTile` fails
with the error carrying that status (`UpstreamUnavailable{status}`); no
cache file is written (a zero-byte partial is removed, so the cache path
reads as absent); the failure is not cached, so a later call for the same
key contacts upstream again (one fetch, for any upstream behaviour). -/
theorem upstream_error_no_cache (fs : FS) (z x y : String) (st : Nat)
    (body : Bytes)
    (hz : isNonNegInt z = true) (hx : isNonNegInt x = true)
    (hy : isNonNegInt y = true)
    (hmiss : existsNonEmpty fs (vectorPath z x y) = false)
    (hbad : ¬ (200 ≤ st ∧ st < 300)) :
    (ensureVectorTileStep fs z x y (.resp st body)).outcome = .error (.http st)
    ∧ (ensureVectorTileStep fs z x y (.resp st body)).fs.read (vectorPath z x y) = none
    ∧ hasWrite (ensureVectorTileStep fs z x y (.resp st body)).events = false
    ∧ (ensureVectorTileStep fs z x y (.resp st body)).fetches = 1
    ∧ ∀ ev2 : UpEvent,
        (ensureVectorTileStep (ensureVectorTileStep fs z x y (.resp st body)).fs
          z x y ev2).fetches = 1 := by
  have hred : ensureVectorTileStep fs z x y (.resp st body) =
      ⟨cleanupZero fs (vectorPath z x y), .error (.http st),
        .fetchEv (upstreamUrl z x y) :: cleanupZeroEvents fs (vectorPath z x y), 1⟩ := by
    unfold ensureVectorTileStep
    rw [zxysToStrings_ok hz hx hy]
    simp only [hmiss, Bool.false_eq_true, if_false]
    rw [if_neg hbad]
  rw [hred]
  refine ⟨rfl, read_cleanupZero_of_miss fs _ hmiss, hasWrite_failEvs _ _ _, rfl, ?_⟩
  intro ev2
  exact fetches_one_of_miss _ z x y ev2 hz hx hy
    (existsNonEmpty_false_of_read_none _ _ (read_cleanupZero_of_miss fs _ hmiss))

theorem upstream_error_no_cache_witness :
    (ensureVectorTileStep [] "8" "9" "10" (.resp 404 [1])).outcome = .error (.http 404)
    ∧ (ensureVectorTileStep [] "8" "9" "10" (.resp 404 [1])).fs.read (vectorPath "8" "9" "10") = none
    ∧ hasWrite (ensureVectorTileStep [] "8" "9" "10" (.resp 404 [1])).events = false
    ∧ (ensureVectorTileStep [] "8" "9" "10" (.resp 404 [1])).fetches = 1
    ∧ ∀ ev2 : UpEvent,
        (ensureVectorTileStep (ensureVectorTileStep [] "8" "9" "10" (.resp 404 [1])).fs
          "8" "9" "10" ev2).fetches = 1 :=
  upstream_error_no_cache [] "8" "9" "10" 404 [1] (by decide) (by decide)
    (by decide) (by decide) (by decide)

/-! ### Claim C9 -/

/-- Claim C9, counterexample: a 2xx nonempty-body fetch for tile 1/2/3
produces exactly one direct `writeFile` to the final cache path and no
rename — the write-to-temporary-then-rename discipline the claim describes
does not happen (src/server.js:90 is a plain `fs.promises.writeFile`). -/
theorem direct_write_cex :
    (ensureVectorTileStep [] "1" "2" "3" (.resp 200 [7, 7])).events =
      [.fetchEv (upstreamUrl "1" "2" "3"), .writeEv (vectorPath "1" "2" "3") [7, 7]]
    ∧ ¬ specAtomicWriteViaRename
        (ensureVectorTileStep [] "1" "2" "3" (.resp 200 [7, 7])).events
        (vectorPath "1" "2" "3") [7, 7] := by
  have hevs : (ensureVectorTileStep [] "1" "2" "3" (.resp 200 [7, 7])).events =
      [.fetchEv (upstreamUrl "1" "2" "3"), .writeEv (vectorPath "1" "2" "3") [7, 7]] := by
    decide
  refine ⟨hevs, ?_⟩
  rintro ⟨tmp, htmp, hw, hr⟩
  rw [hevs] at hr
  simp at hr

/-- Claim C9, amended: when upstream responds 2xx with a nonempty body,
`ensureVectorTile` writes the bytes to the cache path with a single direct
`writeFile` (no temporary path, no rename) and returns that path; the
cache then holds exactly the fetched bytes. -/
theorem direct_write_amended (fs : FS) (z x y : String) (st : Nat) (body : Bytes)
    (hz : isNonNegInt z = true) (hx : isNonNegInt x = true)
    (hy : isNonNegInt y = true)
    (hmiss : existsNonEmpty fs (vectorPath z x y) = false)
    (h2xx : 200 ≤ st ∧ st < 300) (hb : body ≠ []) :
    (ensureVectorTileStep fs z x y (.resp st body)).outcome = .ok (vectorPath z x y)
    ∧ (ensureVectorTileStep fs z x y (.resp st body)).fs.read (vectorPath z x y) = some body
    ∧ (ensureVectorTileStep fs z x y (.resp st body)).events =
        [.fetchEv (upstreamUrl z x y), .writeEv (vectorPath z x y) body] := by
  have hne : ¬ (body.isEmpty = true) := by simpa using hb
  have hred : ensureVectorTileStep fs z x y (.resp st body) =
      ⟨fs.write (vectorPath z x y) body, .ok (vectorPath z x y),
        [.fetchEv (upstreamUrl z x y), .writeEv (vectorPath z x y) body], 1⟩ := by
    unfold ensureVectorTileStep
    rw [zxysToStrings_ok hz hx hy]
    simp only [hmiss, Bool.false_eq_true, if_false]
    rw [if_pos h2xx, if_neg hne]
  rw [hred]
  exact ⟨rfl, FS.read_write_self fs _ body, rfl⟩

theorem direct_write_amended_witness :
    (ensureVectorTileStep [] "4" "5" "6" (.resp 200 [9])).outcome = .ok (vectorPath "4" "5" "6")
    ∧ (ensureVectorTileStep [] "4" "5" "6" (.resp 200 [9])).fs.read (vectorPath "4" "5" "6") = some [9]
    ∧ (ensureVectorTileStep [] "4" "5" "6" (.resp 200 [9])).events =
        [.fetchEv (upstreamUrl "4" "5" "6"), .writeEv (vectorPath "4" "5" "6") [9]] :=
  direct_write_amended [] "4" "5" "6" 200 [9] (by decide) (by decide) (by decide)
    (by decide) (by decide) (by decide)

/-! ### Claim C3 -/

/-- Claim C3, counterexample: a recorded zero-byte sentinel does NOT
satisfy the claim. With a zero-byte file at the key's vector cache path
(the spec's `sizeBytes == 0` sentinel `CacheEntry`), the next
`ensureVectorTile` call contacts upstream (one fetch) instead of reporting
the sentinel without network I/O: `existsNonEmpty` (src/server.js:53)
treats size-0 files as misses. -/
theorem sentinel_refetch_cex :
    (ensureVectorTileStep [(vectorPath "1" "2" "3", [])] "1" "2" "3"
        (.resp 200 [7])).fetches = 1
    ∧ ¬ ((ensureVectorTileStep [(vectorPath "1" "2" "3", [])] "1" "2" "3"
        (.resp 200 [7])).fetches = 0) := by
  decide

/-- Claim C3, amended: a successful `ensureVectorTile` always leaves a
NONEMPTY file at the key's vector cache path (success never records a
zero-byte sentinel — compare claim C2); afterwards, every subsequent call
for that key is a pure cache hit: it returns the same path, performs no
upstream fetch, and leaves the filesystem untouched, regardless of
upstream behaviour. -/
theorem cache_idempotent_amended (fs : FS) (z x y : String) (ev : UpEvent)
    (q : String)
    (hz : isNonNegInt z = true) (hx : isNonNegInt x = true)
    (hy : isNonNegInt y = true)
    (hok : (ensureVectorTileStep fs z x y ev).outcome = .ok q) :
    q = vectorPath z x y
    ∧ existsNonEmpty (ensureVectorTileStep fs z x y ev).fs (vectorPath z x y) = true
    ∧ ∀ ev2 : UpEvent,
        ensureVectorTileStep (ensureVectorTileStep fs z x y ev).fs z x y ev2 =
          ⟨(ensureVectorTileStep fs z x y ev).fs, .ok (vectorPath z x y), [], 0⟩ := by
  by_cases hhit : existsNonEmpty fs (vectorPath z x y) = true
  · have h1 := vt_hit fs z x y ev hz hx hy hhit
    rw [h1] at hok ⊢
    have hq : q = vectorPath z x y := by
      injection hok with h
      exact h.symm
    exact ⟨hq, hhit, fun ev2 => vt_hit fs z x y ev2 hz hx hy hhit⟩
  · have hmiss : existsNonEmpty fs (vectorPath z x y) = false := by
      simpa using hhit
    cases ev with
    | abort =>
      exfalso
      have hred : ensureVectorTileStep fs z x y .abort =
          ⟨cleanupZero fs (vectorPath z x y), .error .aborted,
            .fetchEv (upstreamUrl z x y) :: cleanupZeroEvents fs (vectorPath z x y), 1⟩ := by
        unfold ensureVectorTileStep
        rw [zxysToStrings_ok hz hx hy]
        simp only [hmiss, Bool.false_eq_true, if_false]
      rw [hred] at hok
      exact Except.noConfusion hok
    | resp st body =>
      by_cases h2xx : 200 ≤ st ∧ st < 300
      · by_cases hbe : body.isEmpty = true
        · exfalso
          have hbody : body = [] := by simpa using hbe
          subst hbody
          have := (empty_body_amended fs z x y st hz hx hy hmiss h2xx).1
          rw [this] at hok
          exact Except.noConfusion hok
        · have hb : body ≠ [] := by simpa using hbe
          have hred : ensureVectorTileStep fs z x y (.resp st body) =
              ⟨fs.write (vectorPath z x y) body, .ok (vectorPath z x y),
                [.fetchEv (upstreamUrl z x y), .writeEv (vectorPath z x y) body], 1⟩ := by
            unfold ensureVectorTileStep
            rw [zxysToStrings_ok hz hx hy]
            simp only [hmiss, Bool.false_eq_true, if_false]
            rw [if_pos h2xx, if_neg hbe]
          rw [hred] at hok ⊢
          have hq : q = vectorPath z x y := by
            injection hok with h
            exact h.symm
          have hfull : existsNonEmpty (fs.write (vectorPath z x y) body)
              (vectorPath z x y) = true :=
            existsNonEmpty_write_of_ne_nil fs _ body hb
          exact ⟨hq, hfull, fun ev2 => vt_hit _ z x y ev2 hz hx hy hfull⟩
      · exfalso
        have := (upstream_error_no_cache fs z x y st body hz hx hy hmiss h2xx).1
        rw [this] at hok
        exact Except.noConfusion hok

theorem cache_idempotent_amended_witness :
    vectorPath "1" "2" "3" = vectorPath "1" "2" "3"
    ∧ existsNonEmpty (ensureVectorTileStep [] "1" "2" "3" (.resp 200 [3, 4])).fs
        (vectorPath "1" "2" "3") = true
    ∧ ∀ ev2 : UpEvent,
        ensureVectorTileStep (ensureVectorTileStep [] "1" "2" "3" (.resp 200 [3, 4])).fs
            "1" "2" "3" ev2 =
          ⟨(ensureVectorTileStep [] "1" "2" "3" (.resp 200 [3, 4])).fs,
            .ok (vectorPath "1" "2" "3"), [], 0⟩ :=
  cache_idempotent_amended [] "1" "2" "3" (.resp 200 [3, 4]) (vectorPath "1" "2" "3")
    (by decide) (by decide) (by decide) (by decide)

/-! ### Claim C10 -/

/-- Claim C10: components are validated purely as nonempty decimal-digit
strings and used verbatim: `"7"` and `"007"` are both accepted, the
validator returns the strings unchanged (no numeric canonicalization), and
the two spellings produce distinct registry keys, distinct vector cache
paths and distinct raster cache paths. -/
theorem verbatim_keys :
    isNonNegInt "7" = true ∧ isNonNegInt "007" = true
    ∧ (∀ z x y : String, isNonNegInt z = true → isNonNegInt x = true →
        isNonNegInt y = true → zxysToStrings z x y = .ok (z, x, y))
    ∧ vectorKey "007" "10" "5" ≠ vectorKey "7" "10" "5"
    ∧ vectorPath "007" "10" "5" ≠ vectorPath "7" "10" "5"
    ∧ rasterPath "007" "10" "5" ≠ rasterPath "7" "10" "5" := by
  refine ⟨by decide, by decide, ?_, by decide, by decide, by decide⟩
  intro z x y hz hx hy
  exact zxysToStrings_ok hz hx hy

theorem verbatim_keys_witness :
    isNonNegInt "12" = true
    ∧ zxysToStrings "12" "34" "56" = .ok ("12", "34", "56") :=
  ⟨by decide, verbatim_keys.2.2.1 "12" "34" "56" (by decide) (by decide) (by decide)⟩

/-! ### Raster route lemmas -/

theorem writeBlankTile_nonempty (cfg : Cfg) (fs : FS) (o : String) :
    existsNonEmpty (writeBlankTile cfg fs o) o = true := by
  unfold writeBlankTile ensureBlankTilePresent
  by_cases h : existsNonEmpty fs cfg.blankTilePath = true
  · simp only [h, if_true]
    rcases hr : fs.read cfg.blankTilePath with _ | b
    · exfalso
      unfold existsNonEmpty at h
      rw [hr] at h
      exact Bool.noConfusion h
    · have hb : b ≠ [] := by
        unfold existsNonEmpty at h
        rw [hr] at h
        simpa using h
      exact existsNonEmpty_write_of_ne_nil fs o b hb
  · have h' : existsNonEmpty fs cfg.blankTilePath = false := by simpa using h
    simp only [h', Bool.false_eq_true, if_false]
    rw [FS.read_write_self]
    exact existsNonEmpty_write_of_ne_nil _ o FALLBACK_BLANK_PNG (by decide)

theorem rasterHandler_hit (cfg : Cfg) (fs : FS) (z x y : String)
    (up : UpEvent) (rd : RenderEv)
    (hz : isNonNegInt z = true) (hx : isNonNegInt x = true)
    (hy : isNonNegInt y = true)
    (hhit : existsNonEmpty fs (rasterPath z x y) = true) :
    rasterHandler cfg fs z x y up rd = ⟨fs, ⟨200, rasterPath z x y⟩, 0, 0⟩ := by
  unfold rasterHandler
  rw [zxysToStrings_ok hz hx hy]
  simp [hhit]

theorem rasterHandler_renderFail (cfg : Cfg) (fs : FS) (z x y : String)
    (up : UpEvent) (rd : RenderEv) (q : String) (e : RdError)
    (hz : isNonNegInt z = true) (hx : isNonNegInt x = true)
    (hy : isNonNegInt y = true)
    (hmiss : existsNonEmpty fs (rasterPath z x y) = false)
    (hvt : (ensureVectorTileStep fs z x y up).outcome = .ok q)
    (hrf : (renderTileStep (ensureVectorTileStep fs z x y up).fs z x y rd).outcome =
      .error e) :
    rasterHandler cfg fs z x y up rd =
      blankFallback cfg (renderTileStep (ensureVectorTileStep fs z x y up).fs z x y rd).fs
        (rasterPath z x y) (ensureVectorTileStep fs z x y up).fetches
        (renderTileStep (ensureVectorTileStep fs z x y up).fs z x y rd).spawns := by
  unfold rasterHandler
  rw [zxysToStrings_ok hz hx hy]
  simp only [hmiss, Bool.false_eq_true, if_false, hvt, hrf]

/-! ### Claim C5 -/

/-- Claim C5, counterexample: tile 10/5/5 with a cached vector prerequisite
and a renderer that exits with status 1 writing nothing. Under the default
configuration (`CACHE_BLANK_TILES` enabled) the handler PERSISTS a blank
tile at the raster cache path (the cache entry reads back as the blank
bytes, not as absent), and an immediately repeated request spawns NO fresh
renderer — it serves the cached blank. There is also no ErrorTile in
src/server.js at all; the fallback asset is the blank tile. -/
theorem render_failure_cex :
    (rasterHandler defaultCfg [(vectorPath "10" "5" "5", [1])] "10" "5" "5"
        (.resp 200 [1]) ⟨1, none⟩).fs.read (rasterPath "10" "5" "5") =
      some FALLBACK_BLANK_PNG
    ∧ (rasterHandler defaultCfg
        (rasterHandler defaultCfg [(vectorPath "10" "5" "5", [1])] "10" "5" "5"
          (.resp 200 [1]) ⟨1, none⟩).fs
        "10" "5" "5" (.resp 200 [1]) ⟨1, none⟩).spawns = 0
    ∧ ¬ ((rasterHandler defaultCfg [(vectorPath "10" "5" "5", [1])] "10" "5" "5"
        (.resp 200 [1]) ⟨1, none⟩).fs.read (rasterPath "10" "5" "5") = none) := by
  decide

/-- Claim C5, amended: under the default configuration, when the renderer
invocation fails (non-zero exit or no nonempty output), the raster route
serves the 200 blank-tile copy persisted AT the raster cache path (there is
no ErrorTile in src/server.js); because the blank is persisted, an
immediately repeated request for the same coordinate is a cache hit that
performs no upstream fetch and spawns no fresh renderer. -/
theorem render_failure_amended (fs : FS) (z x y : String) (up : UpEvent)
    (rd : RenderEv) (q : String) (e : RdError)
    (hz : isNonNegInt z = true) (hx : isNonNegInt x = true)
    (hy : isNonNegInt y = true)
    (hmiss : existsNonEmpty fs (rasterPath z x y) = false)
    (hvt : (ensureVectorTileStep fs z x y up).outcome = .ok q)
    (hrf : (renderTileStep (ensureVectorTileStep fs z x y up).fs z x y rd).outcome =
      .error e) :
    (rasterHandler defaultCfg fs z x y up rd).resp = ⟨200, rasterPath z x y⟩
    ∧ existsNonEmpty (rasterHandler defaultCfg fs z x y up rd).fs (rasterPath z x y) = true
    ∧ ∀ (up2 : UpEvent) (rd2 : RenderEv),
        rasterHandler defaultCfg (rasterHandler defaultCfg fs z x y up rd).fs
            z x y up2 rd2 =
          ⟨(rasterHandler defaultCfg fs z x y up rd).fs,
            ⟨200, rasterPath z x y⟩, 0, 0⟩ := by
  have hred := rasterHandler_renderFail defaultCfg fs z x y up rd q e
    hz hx hy hmiss hvt hrf
  rw [hred]
  unfold blankFallback
  simp only [defaultCfg, if_true]
  refine ⟨trivial, writeBlankTile_nonempty _ _ _, ?_⟩
  intro up2 rd2
  exact rasterHandler_hit defaultCfg _ z x y up2 rd2 hz hx hy
    (writeBlankTile_nonempty _ _ _)

theorem render_failure_amended_witness :
    (rasterHandler defaultCfg [(vectorPath "3" "4" "5", [2])] "3" "4" "5"
        (.resp 200 [2]) ⟨7, none⟩).resp = ⟨200, rasterPath "3" "4" "5"⟩
    ∧ existsNonEmpty (rasterHandler defaultCfg [(vectorPath "3" "4" "5", [2])]
        "3" "4" "5" (.resp 200 [2]) ⟨7, none⟩).fs (rasterPath "3" "4" "5") = true
    ∧ ∀ (up2 : UpEvent) (rd2 : RenderEv),
        rasterHandler defaultCfg
            (rasterHandler defaultCfg [(vectorPath "3" "4" "5", [2])] "3" "4" "5"
              (.resp 200 [2]) ⟨7, none⟩).fs "3" "4" "5" up2 rd2 =
          ⟨(rasterHandler defaultCfg [(vectorPath "3" "4" "5", [2])] "3" "4" "5"
              (.resp 200 [2]) ⟨7, none⟩).fs, ⟨200, rasterPath "3" "4" "5"⟩, 0, 0⟩ :=
  render_failure_amended [(vectorPath "3" "4" "5", [2])] "3" "4" "5"
    (.resp 200 [2]) ⟨7, none⟩ (vectorPath "3" "4" "5") (.exited 7)
    (by decide) (by decide) (by decide) (by decide) (by decide) (by decide)

/-! ### Claim C8 -/

/-- Claim C8, counterexample: a raster request whose zoom component is
`"-1"` carries an invalid (negative) coordinate, yet the response is NOT a
client error: it is a 200 serving the blank tile asset
(src/server.js:176 `sendTile(res, BLANK_TILE_PATH)` on the validation
catch). -/
theorem invalid_coord_cex :
    (rasterHandler defaultCfg [] "-1" "0" "0" (.resp 200 [1]) ⟨0, none⟩).resp.status = 200
    ∧ (rasterHandler defaultCfg [] "-1" "0" "0" (.resp 200 [1]) ⟨0, none⟩).resp.sentPath =
        defaultCfg.blankTilePath
    ∧ ¬ (400 ≤ (rasterHandler defaultCfg [] "-1" "0" "0"
          (.resp 200 [1]) ⟨0, none⟩).resp.status
        ∧ (rasterHandler defaultCfg [] "-1" "0" "0"
          (.resp 200 [1]) ⟨0, none⟩).resp.status < 500) := by
  decide

/-- Claim C8, amended: coordinate validation fails exactly when some
component is not a nonempty decimal-digit string — which covers missing
(`undefined`), non-integral (`"1.5"`) and negative (`"-1"`) components,
while digit strings pass through verbatim. On a failed validation the
raster route does not reject with a client error: it serves the blank tile
asset with status 200, performs no upstream fetch and no render, and
touches the filesystem only to materialize the blank asset. -/
theorem invalid_coord_amended (cfg : Cfg) (fs : FS) (z x y : String)
    (up : UpEvent) (rd : RenderEv)
    (hbad : (isNonNegInt z && isNonNegInt x && isNonNegInt y) = false) :
    rasterHandler cfg fs z x y up rd =
      ⟨ensureBlankTilePresent cfg fs, ⟨200, cfg.blankTilePath⟩, 0, 0⟩
    ∧ zxysToStrings z x y = .error "bad z/x/y"
    ∧ zxysToStrings "-1" "0" "0" = .error "bad z/x/y"
    ∧ zxysToStrings "1.5" "0" "0" = .error "bad z/x/y"
    ∧ zxysToStrings (jsStringOfOpt none) "0" "0" = .error "bad z/x/y"
    ∧ (∀ a b c : String, isNonNegInt a = true → isNonNegInt b = true →
        isNonNegInt c = true → zxysToStrings a b c = .ok (a, b, c)) := by
  have hz : zxysToStrings z x y = .error "bad z/x/y" := by
    unfold zxysToStrings
    rw [hbad]
    rfl
  refine ⟨?_, hz, by decide, by decide, by decide,
    fun a b c ha hb hc => zxysToStrings_ok ha hb hc⟩
  unfold rasterHandler
  rw [hz]

theorem invalid_coord_amended_witness :
    rasterHandler defaultCfg [] "abc" "0" "0" (.resp 200 [1]) ⟨0, none⟩ =
      ⟨ensureBlankTilePresent defaultCfg [], ⟨200, defaultCfg.blankTilePath⟩, 0, 0⟩
    ∧ zxysToStrings "abc" "0" "0" = .error "bad z/x/y"
    ∧ zxysToStrings "-1" "0" "0" = .error "bad z/x/y"
    ∧ zxysToStrings "1.5" "0" "0" = .error "bad z/x/y"
    ∧ zxysToStrings (jsStringOfOpt none) "0" "0" = .error "bad z/x/y"
    ∧ (∀ a b c : String, isNonNegInt a = true → isNonNegInt b = true →
        isNonNegInt c = true → zxysToStrings a b c = .ok (a, b, c)) :=
  invalid_coord_amended defaultCfg [] "abc" "0" "0" (.resp 200 [1]) ⟨0, none⟩
    (by decide)

/-! ### Claim C6 -/

/-- Claim C6: the sweeper never overlaps passes and coalesces triggers.
(1) A trigger while a pass is running only sets the pending flag and
defers (no pass starts, the active count is unchanged). (2) Completion
with the pending flag set clears it and reruns via `setImmediate`; the
rerun trigger then starts exactly one new pass. (3) Completion without the
pending flag schedules the next pass one fixed interval after the
completion time. (4)-(6) The active-pass count equals the `running` flag,
is preserved by triggers and completions, and therefore never exceeds one
(no two concurrent passes). -/
theorem cleanup_coalescing (s : CleanSt) (now : Nat) (m : Int) :
    (s.running = true → triggerCleanup s = ({ s with pending := true }, .deferred))
    ∧ (s.running = true → s.pending = true →
        completeCleanup s now m = (⟨false, false, s.active - 1⟩, .rerunNow)
        ∧ triggerCleanup (completeCleanup s now m).1 =
            (⟨true, false, s.active - 1 + 1⟩, .startedPass))
    ∧ (s.pending = false →
        completeCleanup s now m =
          (⟨false, false, s.active - 1⟩, .timerAt (now + intervalMs m)))
    ∧ (CleanInv s → s.active ≤ 1)
    ∧ (CleanInv s → CleanInv (triggerCleanup s).1)
    ∧ (s.running = true → CleanInv s → CleanInv (completeCleanup s now m).1) := by
  obtain ⟨r, pnd, a⟩ := s
  refine ⟨?_, ?_, ?_, ?_, ?_, ?_⟩
  · intro hr
    subst hr
    simp [triggerCleanup]
  · intro hr hp
    subst hr
    subst hp
    exact ⟨by simp [completeCleanup], by simp [completeCleanup, triggerCleanup]⟩
  · intro hp
    subst hp
    simp [completeCleanup]
  · intro hinv
    unfold CleanInv at hinv
    dsimp only at hinv
    cases r <;> simp [hinv]
  · intro hinv
    unfold CleanInv at hinv ⊢
    dsimp only at hinv
    cases r <;> simp_all [triggerCleanup]
  · intro hr hinv
    subst hr
    unfold CleanInv at hinv ⊢
    dsimp only at hinv
    subst hinv
    unfold completeCleanup
    cases pnd <;> simp

theorem cleanup_coalescing_witness :
    completeCleanup ⟨true, true, 1⟩ 0 15 = (⟨false, false, 0⟩, .rerunNow)
    ∧ triggerCleanup (completeCleanup ⟨true, true, 1⟩ 0 15).1 =
        (⟨true, false, 1⟩, .startedPass) :=
  (cleanup_coalescing ⟨true, true, 1⟩ 0 15).2.1 rfl rfl

/-! ### Claim C7 -/

theorem sweepFiles_zero_cap (now t : Nat) (exts : List String) :
    ∀ (l : List CacheFile) (del : Nat),
      sweepFiles now t exts 0 l del =
        (l.filter (fun f => !shouldDelete now t exts f),
          del + (l.filter (shouldDelete now t exts)).length) := by
  intro l
  induction l with
  | nil => intro del; simp [sweepFiles]
  | cons f rest ih =>
    intro del
    unfold sweepFiles
    have hc : ¬ ((0 : Nat) > 0 ∧ 0 ≤ del) := by omega
    rw [if_neg hc]
    by_cases hd : shouldDelete now t exts f = true
    · rw [if_pos hd, ih (del + 1)]
      simp [List.filter_cons, hd]
      omega
    · have hd' : shouldDelete now t exts f = false := by simpa using hd
      rw [if_neg hd, ih del]
      simp [List.filter_cons, hd']

/-- Claim C7, counterexample: there is no exclusion list. A sweep pass over
a raster tree that happens to contain the file at the configured blank-tile
path (here `BLANK_TILE_PATH` is set inside `RASTER_DIR`) deletes that file
like any other old `.png`; `cleanupOld` in src/server.js:204-220 takes no
exclusion set at all, and src/server.js has no ErrorTile asset. -/
theorem cleanup_no_exclusion_cex :
    cleanupOld (some 1000) 1000000 [".png"] 0
        [⟨RASTER_DIR ++ "/blank.png", "blank.png", 0⟩] = ([], 1)
    ∧ (⟨RASTER_DIR ++ "/blank.png", "blank.png", 0⟩ : CacheFile).path =
        (Cfg.mk true (RASTER_DIR ++ "/blank.png")).blankTilePath := by
  constructor
  · show sweepFiles 1000000 1000 [".png"] 0
        [⟨RASTER_DIR ++ "/blank.png", "blank.png", 0⟩] 0 = ([], 1)
    rw [sweepFiles_zero_cap]
    decide
  · rfl

/-- Claim C7, amended: per-file sweep behaviour of `cleanupOld` under the
default unbounded deletion cap. A non-positive TTL (hours) maps to
infinity, and an infinite TTL skips the kind entirely (the tree is
returned untouched with 0 deletions). With a finite TTL the surviving
files are exactly the files NOT satisfying the delete condition
(matching extension and `now - mtime > ttl`), the deletion count is the
number of files satisfying it, every old matching file is deleted and
every other file is retained. There is no exclusion list for the
BlankTile (or any other asset): protection comes only from the asset's
default location outside the swept roots. -/
theorem cleanup_ttl_amended :
    (∀ h : Int, h ≤ 0 → toMsOrInfinity h = none)
    ∧ (∀ (now : Nat) (exts : List String) (cap : Nat) (files : List CacheFile),
        cleanupOld none now exts cap files = (files, 0))
    ∧ (∀ (t now : Nat) (exts : List String) (files : List CacheFile),
        (cleanupOld (some t) now exts 0 files).1 =
          files.filter (fun f => !shouldDelete now t exts f))
    ∧ (∀ (t now : Nat) (exts : List String) (files : List CacheFile),
        (cleanupOld (some t) now exts 0 files).2 =
          (files.filter (shouldDelete now t exts)).length)
    ∧ (∀ (t now : Nat) (exts : List String) (files : List CacheFile)
        (f : CacheFile), f ∈ files → shouldDelete now t exts f = true →
          f ∉ (cleanupOld (some t) now exts 0 files).1)
    ∧ (∀ (t now : Nat) (exts : List String) (files : List CacheFile)
        (f : CacheFile), f ∈ files → shouldDelete now t exts f = false →
          f ∈ (cleanupOld (some t) now exts 0 files).1) := by
  have hfil : ∀ (t now : Nat) (exts : List String) (files : List CacheFile),
      (cleanupOld (some t) now exts 0 files).1 =
        files.filter (fun f => !shouldDelete now t exts f) := by
    intro t now exts files
    show (sweepFiles now t exts 0 files 0).1 = _
    rw [sweepFiles_zero_cap]
  refine ⟨?_, ?_, hfil, ?_, ?_, ?_⟩
  · intro h hh
    unfold toMsOrInfinity
    rw [if_neg (by omega)]
  · intro now exts cap files
    rfl
  · intro t now exts files
    show (sweepFiles now t exts 0 files 0).2 = _
    rw [sweepFiles_zero_cap]
    simp
  · intro t now exts files f hf hdel
    rw [hfil]
    intro hmem
    have hkeep := (List.mem_filter.mp hmem).2
    rw [hdel] at hkeep
    simp at hkeep
  · intro t now exts files f hf hdel
    rw [hfil]
    exact List.mem_filter.mpr ⟨hf, by simp [hdel]⟩

theorem cleanup_ttl_amended_witness :
    toMsOrInfinity 0 = none
    ∧ cleanupOld none 7 [".png"] 0 [⟨"/data/raster/1/2/3.png", "3.png", 0⟩] =
        ([⟨"/data/raster/1/2/3.png", "3.png", 0⟩], 0)
    ∧ (cleanupOld (some 10) 100 [".png"] 0
        [⟨"/data/raster/1/2/3.png", "3.png", 0⟩]).1 =
      List.filter (fun f => !shouldDelete 100 10 [".png"] f)
        [⟨"/data/raster/1/2/3.png", "3.png", 0⟩] :=
  ⟨cleanup_ttl_amended.1 0 (by omega),
    cleanup_ttl_amended.2.1 7 [".png"] 0 [⟨"/data/raster/1/2/3.png", "3.png", 0⟩],
    cleanup_ttl_amended.2.2.1 10 100 [".png"] [⟨"/data/raster/1/2/3.png", "3.png", 0⟩]⟩

/-! ### Claim C1 -/

theorem dreach_remove_eq_work {p : String} {res : Option VTError} {n : Nat}
    {s : DSys n} (h : DReach p res (dInit n) s) :
    s.removeCount = s.workCount := by
  induction h with
  | refl => rfl
  | tail _ hs ih =>
    cases hs with
    | hit i h1 h2 => exact ih
    | attach i h1 h2 h3 => exact ih
    | lead i h1 h2 h3 => exact ih
    | settle ht => simpa using ih

theorem dreach_cache_work {p : String} {res : Option VTError} {n : Nat}
    {s : DSys n} (h : DReach p res (dInit n) s) (hw : s.workCount = 0) :
    s.cacheHit = false := by
  induction h with
  | refl => rfl
  | tail _ hs ih =>
    cases hs with
    | hit i h1 h2 => exact ih hw
    | attach i h1 h2 h3 => exact ih hw
    | lead i h1 h2 h3 => exact ih hw
    | settle ht => simp at hw

theorem dreach_cache_err {p : String} {e : VTError} {n : Nat}
    {s : DSys n} (h : DReach p (some e) (dInit n) s) :
    s.cacheHit = false := by
  induction h with
  | refl => rfl
  | tail _ hs ih =>
    cases hs with
    | hit i h1 h2 => exact ih
    | attach i h1 h2 h3 => exact ih
    | lead i h1 h2 h3 => exact ih
    | settle ht => simp [ih]

theorem dreach_done {p : String} {res : Option VTError} {n : Nat}
    {s : DSys n} (h : DReach p res (dInit n) s) :
    ∀ (i : Fin n) (r : Except VTError String),
      s.callers i = .done r → r = dedupOutcome p res := by
  induction h with
  | refl =>
    intro i r hir
    exact CallerPc.noConfusion hir
  | tail hr hs ih =>
    intro i r hir
    cases hs with
    | hit j h1 h2 =>
      dsimp only at hir
      by_cases hij : i = j
      · subst hij
        rw [Function.update_same] at hir
        injection hir with h2'
        cases res with
        | none => rw [← h2']; rfl
        | some e =>
          exfalso
          have hc := dreach_cache_err hr
          rw [h2] at hc
          exact Bool.noConfusion hc
      · rw [Function.update_noteq hij] at hir
        exact ih i r hir
    | attach j h1 h2 h3 =>
      dsimp only at hir
      by_cases hij : i = j
      · subst hij
        rw [Function.update_same] at hir
        exact CallerPc.noConfusion hir
      · rw [Function.update_noteq hij] at hir
        exact ih i r hir
    | lead j h1 h2 h3 =>
      dsimp only at hir
      by_cases hij : i = j
      · subst hij
        rw [Function.update_same] at hir
        exact CallerPc.noConfusion hir
      · rw [Function.update_noteq hij] at hir
        exact ih i r hir
    | settle ht =>
      dsimp only [settleCallers] at hir
      split at hir
      · injection hir with h2'
        exact h2'.symm
      · exact ih i r hir

theorem dreach_phi {p : String} {n : Nat} {s : DSys n}
    (h : DReach p none (dInit n) s) : DPhi s := by
  induction h with
  | refl => exact Or.inl ⟨rfl, rfl⟩
  | tail _ hs ih =>
    cases hs with
    | hit i h1 h2 =>
      rcases ih with ⟨hw, hc⟩ | ⟨hw, hi, hc⟩
      · exact Or.inl ⟨hw, hc⟩
      · exact Or.inr ⟨hw, hi, hc⟩
    | attach i h1 h2 h3 =>
      rcases ih with ⟨hw, hc⟩ | ⟨hw, hi, hc⟩
      · exact Or.inl ⟨hw, hc⟩
      · exact Or.inr ⟨hw, hi, hc⟩
    | lead i h1 h2 h3 =>
      rcases ih with ⟨hw, hc⟩ | ⟨hw, hi, hc⟩
      · exact Or.inl ⟨hw, hc⟩
      · exfalso
        rw [h2] at hc
        exact Bool.noConfusion hc
    | settle ht =>
      rcases ih with ⟨hw, hc⟩ | ⟨hw, hi, hc⟩
      · exact Or.inr ⟨by simp [hw], rfl, by simp [hc]⟩
      · exfalso
        rw [hi] at ht
        exact Bool.noConfusion ht

theorem dreach_wczero {p : String} {res : Option VTError} {n : Nat}
    {s : DSys n} (h : DReach p res (dInit n) s) (hw : s.workCount = 0) :
    (∀ i, s.callers i = .entry ∨ s.callers i = .waiting)
    ∧ ((∃ i, s.callers i = CallerPc.waiting) → s.inflight = true) := by
  induction h with
  | refl =>
    refine ⟨fun i => Or.inl rfl, ?_⟩
    rintro ⟨i, hi⟩
    exact CallerPc.noConfusion hi
  | tail hr hs ih =>
    cases hs with
    | hit j h1 h2 =>
      exfalso
      have hc := dreach_cache_work hr hw
      rw [h2] at hc
      exact Bool.noConfusion hc
    | attach j h1 h2 h3 =>
      have iht := ih hw
      dsimp only
      refine ⟨fun i => ?_, fun _ => h3⟩
      by_cases hij : i = j
      · subst hij
        rw [Function.update_same]
        exact Or.inr rfl
      · rw [Function.update_noteq hij]
        exact iht.1 i
    | lead j h1 h2 h3 =>
      have iht := ih hw
      dsimp only
      refine ⟨fun i => ?_, fun _ => rfl⟩
      by_cases hij : i = j
      · subst hij
        rw [Function.update_same]
        exact Or.inr rfl
      · rw [Function.update_noteq hij]
        exact iht.1 i
    | settle ht => simp at hw

/-- Claim C1: the in-flight registry dedup guarantee, for both registries
(`inflightPbf`/`ensureVectorTile` with the upstream fetch as the
underlying operation, and `inflightRaster`/`renderTile` with the renderer
spawn; `p` is the key's cache path and `res` the operation's outcome).
In every state reachable from N pending requests for a cold key:
(1) registry entries were removed exactly once per settled operation;
(2) every caller that finished observed the identical outcome — the same
path on success, the same error on failure;
(3) on the success path at most one underlying operation ever runs, no
matter how calls interleave;
(4) when N ≥ 1 concurrent callers have all arrived before the pending
result settles (no operation finished yet), the registry holds exactly the
one pending entry, and the only possible next step — the settlement —
performs the single underlying operation, removes the entry exactly once,
and hands every caller that attached the identical outcome. -/
theorem inflight_dedup (p : String) (res : Option VTError) (n : Nat)
    (hn : 0 < n) (s : DSys n) (hs : DReach p res (dInit n) s) :
    s.removeCount = s.workCount
    ∧ (∀ (i : Fin n) (r : Except VTError String),
        s.callers i = CallerPc.done r → r = dedupOutcome p res)
    ∧ (res = none → s.workCount ≤ 1)
    ∧ (s.workCount = 0 → (∀ i, s.callers i ≠ CallerPc.entry) →
        s.inflight = true ∧
        ∀ s', DStep p res s s' →
          s'.workCount = 1 ∧ s'.removeCount = 1 ∧
          ∀ i, s'.callers i = CallerPc.done (dedupOutcome p res)) := by
  refine ⟨dreach_remove_eq_work hs, dreach_done hs, ?_, ?_⟩
  · rintro rfl
    rcases dreach_phi hs with ⟨hw, _⟩ | ⟨hw, _, _⟩ <;> omega
  · intro hw hne
    have hinv := dreach_wczero hs hw
    have hall : ∀ i, s.callers i = CallerPc.waiting := by
      intro i
      rcases hinv.1 i with he | hwa
      · exact absurd he (hne i)
      · exact hwa
    have hinf : s.inflight = true := hinv.2 ⟨⟨0, hn⟩, hall _⟩
    refine ⟨hinf, ?_⟩
    intro s' hstep
    cases hstep with
    | hit i h1 h2 => exact absurd h1 (hne i)
    | attach i h1 h2 h3 => exact absurd h1 (hne i)
    | lead i h1 h2 h3 => exact absurd h1 (hne i)
    | settle ht =>
      have hrw := dreach_remove_eq_work hs
      refine ⟨by simp [hw], by simp [hrw, hw], ?_⟩
      intro i
      simp [settleCallers, hall i]

theorem demoDSys_reach : DReach demoPath none (dInit 2) demoDSys :=
  DReach.tail
    (DReach.tail (DReach.refl _) (DStep.lead (dInit 2) 0 rfl rfl rfl))
    (DStep.attach _ 1 (by decide) rfl rfl)

theorem inflight_dedup_witness :
    demoDSys.removeCount = demoDSys.workCount
    ∧ (∀ (i : Fin 2) (r : Except VTError String),
        demoDSys.callers i = CallerPc.done r → r = dedupOutcome demoPath none)
    ∧ ((none : Option VTError) = none → demoDSys.workCount ≤ 1)
    ∧ (demoDSys.workCount = 0 → (∀ i, demoDSys.callers i ≠ CallerPc.entry) →
        demoDSys.inflight = true ∧
        ∀ s', DStep demoPath none demoDSys s' →
          s'.workCount = 1 ∧ s'.removeCount = 1 ∧
          ∀ i, s'.callers i = CallerPc.done (dedupOutcome demoPath none)) :=
  inflight_dedup demoPath none 2 (by decide) demoDSys demoDSys_reach

end QTopo
